import Mathlib

/-!
Verification of the schedule state-transition engine of the
uottawa-campus-guide repository (the Redux reducer `src/reducers/schedule.js`
exercised by `src/reducers/__tests__/schedule-test.js`).

The state is a tree: a mapping from semester identifier to semester, each
semester holding an ordered course sequence, each course an ordered lecture
sequence.  Commands are the five `SCHEDULE_*` action types plus a catch-all
for unrecognized tags.
-/

namespace CampusGuide

/-- A lecture session.  Its key within a course is the `(day, startTime)`
pair of integers; all remaining attributes (`endTime`, `format`, ...) are
opaque payload carried through unchanged, collapsed here into one field. -/
structure Lecture where
  day : Int
  startTime : Int
  payload : String
  deriving DecidableEq

/-- A course.  Its key within a semester is `code`; the remaining attributes
other than the lecture sequence are opaque payload. -/
structure Course where
  code : String
  lectures : List Lecture
  payload : String
  deriving DecidableEq

/-- A semester.  Its key in the schedule mapping is `id`; the display-name
attributes (a single name or per-locale names), which the engine never
reads, are opaque payload. -/
structure Semester where
  id : String
  courses : List Course
  payload : String
  deriving DecidableEq

/-- The root state `{ schedule: {...} }`: a mapping from semester identifier
to semester, modelled as an association list with JavaScript object
semantics (assigning an existing key replaces its value in place, a fresh
key is appended). -/
structure ScheduleState where
  schedule : List (String × Semester)
  deriving DecidableEq

/-- Key lookup in a JavaScript-object-like mapping. -/
def objLookup {α : Type} (m : List (String × α)) (k : String) : Option α :=
  match m with
  | [] => none
  | (k', v) :: rest => if k' == k then some v else objLookup rest k

/-- Key assignment in a JavaScript-object-like mapping (`{...m, [k]: v}`):
replaces the value at an existing key in place, appends a fresh key. -/
def objInsert {α : Type} (m : List (String × α)) (k : String) (v : α) :
    List (String × α) :=
  match m with
  | [] => [(k, v)]
  | (k', v') :: rest =>
      if k' == k then (k, v) :: rest else (k', v') :: objInsert rest k v

/-- The five schedule command tags, plus `other` for any action whose tag is
none of them (including the empty action `{}`). -/
inductive Command where
  | addSemester (semester : Semester)
  | addCourse (semester : String) (course : Course)
  | removeCourse (semester : String) (courseCode : String)
  | addLecture (semester : String) (courseCode : String) (lecture : Lecture)
  | removeLecture (semester : String) (courseCode : String)
      (day : Int) (startTime : Int)
  | other
  deriving DecidableEq

/-- The initial state `{ schedule: {} }`. -/
def initialState : ScheduleState := ⟨[]⟩

/-- Does a lecture match the composite key `(day, startTime)`? -/
def lectureKeyMatches (d t : Int) (l : Lecture) : Bool :=
  l.day == d && l.startTime == t

/-- The in-place rebuild of one course's lecture payload performed by
ADD_LECTURE on the course whose code matches: the new lecture is prepended
and any existing lecture with the same `(day, startTime)` key is dropped. -/
def addLectureToCourse (lec : Lecture) (c : Course) : Course :=
  { c with lectures :=
      lec :: c.lectures.filter (fun l => !(lectureKeyMatches lec.day lec.startTime l)) }

/-- The in-place rebuild of one course's lecture payload performed by
REMOVE_LECTURE on the course whose code matches: the lecture with the given
`(day, startTime)` key is filtered out, order of the rest preserved. -/
def removeLectureFromCourse (d t : Int) (c : Course) : Course :=
  { c with lectures := c.lectures.filter (fun l => !(lectureKeyMatches d t l)) }

/-- Modelled from the spec: the command processor of `src/reducers/schedule.js`
(the reducer's source file is not among the provided sources; only its test
suite is).  Per spec §4.1-§4.6: an absent state is normalized to the empty
schedule; ADD_SEMESTER inserts or replaces the entry at the semester's own
identifier verbatim; ADD_COURSE prepends the course and drops existing
courses with the same code; REMOVE_COURSE filters out the matching code;
ADD_LECTURE rebuilds the target course's lectures in place (prepend, drop
same `(day, startTime)`); REMOVE_LECTURE filters the matching key out of the
target course's lectures in place; a missing semester or course target is a
no-op, and unrecognized tags return the state unchanged. -/
def reducer (state : Option ScheduleState) (cmd : Command) : ScheduleState :=
  let s := state.getD initialState
  match cmd with
  | .addSemester sem => ⟨objInsert s.schedule sem.id sem⟩
  | .addCourse semId course =>
      match objLookup s.schedule semId with
      | none => s
      | some sem =>
          ⟨objInsert s.schedule semId
            { sem with courses :=
                course :: sem.courses.filter (fun c => !(c.code == course.code)) }⟩
  | .removeCourse semId code =>
      match objLookup s.schedule semId with
      | none => s
      | some sem =>
          ⟨objInsert s.schedule semId
            { sem with courses := sem.courses.filter (fun c => !(c.code == code)) }⟩
  | .addLecture semId code lec =>
      match objLookup s.schedule semId with
      | none => s
      | some sem =>
          if sem.courses.any (fun c => c.code == code) then
            ⟨objInsert s.schedule semId
              { sem with courses := sem.courses.map (fun c =>
                  if c.code == code then addLectureToCourse lec c else c) }⟩
          else s
  | .removeLecture semId code d t =>
      match objLookup s.schedule semId with
      | none => s
      | some sem =>
          if sem.courses.any (fun c => c.code == code) then
            ⟨objInsert s.schedule semId
              { sem with courses := sem.courses.map (fun c =>
                  if c.code == code then removeLectureFromCourse d t c else c) }⟩
          else s
  | .other => s

/-- Fold a command sequence through the reducer from a given state. -/
def applyCommands (s : ScheduleState) (cmds : List Command) : ScheduleState :=
  cmds.foldl (fun st c => reducer (some st) c) s

/-! ### Lemmas about the object-mapping model -/

theorem objLookup_objInsert_self {α : Type} (m : List (String × α)) (k : String)
    (v : α) : objLookup (objInsert m k v) k = some v := by
  induction m with
  | nil => simp [objInsert, objLookup]
  | cons p rest ih =>
      obtain ⟨k', v'⟩ := p
      by_cases h : k' = k
      · simp [objInsert, objLookup, h]
      · simp [objInsert, objLookup, h, ih]

theorem objLookup_objInsert_ne {α : Type} (m : List (String × α)) (k k' : String)
    (v : α) (h : k' ≠ k) :
    objLookup (objInsert m k v) k' = objLookup m k' := by
  induction m with
  | nil =>
      have h' : k ≠ k' := fun hk => h hk.symm
      simp [objInsert, objLookup, h']
  | cons p rest ih =>
      obtain ⟨k₀, v₀⟩ := p
      by_cases h₀ : k₀ = k
      · have h' : k ≠ k' := fun hk => h hk.symm
        simp [objInsert, objLookup, h₀, h']
      · by_cases h₁ : k₀ = k'
        · simp [objInsert, objLookup, h₀, h₁, h]
        · simp [objInsert, objLookup, h₀, h₁, ih]

theorem objLookup_mem {α : Type} (m : List (String × α)) (k : String) (v : α)
    (h : objLookup m k = some v) : (k, v) ∈ m := by
  induction m with
  | nil => simp [objLookup] at h
  | cons p rest ih =>
      obtain ⟨k₀, v₀⟩ := p
      by_cases h₀ : k₀ = k
      · subst h₀
        simp [objLookup] at h
        subst h
        exact List.mem_cons_self _ _
      · simp [objLookup, h₀] at h
        exact List.mem_cons_of_mem _ (ih h)

theorem mem_objInsert {α : Type} (m : List (String × α)) (k : String) (v : α)
    (p : String × α) (hp : p ∈ objInsert m k v) : p ∈ m ∨ p = (k, v) := by
  induction m with
  | nil => simpa [objInsert] using hp
  | cons q rest ih =>
      obtain ⟨k₀, v₀⟩ := q
      by_cases h₀ : k₀ = k
      · subst h₀
        simp only [objInsert, beq_self_eq_true, if_true] at hp
        rcases List.mem_cons.mp hp with h | h
        · exact Or.inr h
        · exact Or.inl (List.mem_cons_of_mem _ h)
      · simp only [objInsert] at hp
        rw [if_neg (by simpa using h₀)] at hp
        rcases List.mem_cons.mp hp with h | h
        · exact Or.inl (h ▸ List.mem_cons_self _ _)
        · rcases ih h with h' | h'
          · exact Or.inl (List.mem_cons_of_mem _ h')
          · exact Or.inr h'

theorem mem_keys_objInsert {α : Type} (m : List (String × α)) (k a : String)
    (v : α) (ha : a ∈ (objInsert m k v).map Prod.fst) :
    a ∈ m.map Prod.fst ∨ a = k := by
  obtain ⟨p, hp, hfst⟩ := List.mem_map.mp ha
  rcases mem_objInsert m k v p hp with h | h
  · exact Or.inl (hfst ▸ List.mem_map_of_mem Prod.fst h)
  · subst h
    exact Or.inr hfst.symm

theorem nodup_keys_objInsert {α : Type} (m : List (String × α)) (k : String)
    (v : α) (h : (m.map Prod.fst).Nodup) :
    ((objInsert m k v).map Prod.fst).Nodup := by
  induction m with
  | nil => simp [objInsert]
  | cons p rest ih =>
      obtain ⟨k₀, v₀⟩ := p
      simp only [List.map_cons, List.nodup_cons] at h
      by_cases h₀ : k₀ = k
      · subst h₀
        simp only [objInsert, beq_self_eq_true, if_true, List.map_cons,
          List.nodup_cons]
        exact h
      · simp only [objInsert]
        rw [if_neg (by simpa using h₀)]
        simp only [List.map_cons, List.nodup_cons]
        refine ⟨fun hmem => ?_, ih h.2⟩
        rcases mem_keys_objInsert rest k k₀ v hmem with h' | h'
        · exact h.1 h'
        · exact h₀ h'

theorem objInsert_lookup_self {α : Type} (m : List (String × α)) (k : String)
    (v : α) (h : objLookup m k = some v) : objInsert m k v = m := by
  induction m with
  | nil => simp [objLookup] at h
  | cons p rest ih =>
      obtain ⟨k₀, v₀⟩ := p
      by_cases h₀ : k₀ = k
      · subst h₀
        simp [objLookup] at h
        simp [objInsert, h]
      · simp [objLookup, h₀] at h
        simp [objInsert, h₀, ih h]

/-! ### Uniqueness predicates (spec §3, invariants 1-3) -/

/-- No two lectures of the course share a `(day, startTime)` key. -/
def CourseUnique (c : Course) : Prop :=
  (c.lectures.map fun l => (l.day, l.startTime)).Nodup

/-- No two courses of the semester share a code, and every course has
pairwise-distinct lecture keys. -/
def SemesterUnique (sem : Semester) : Prop :=
  (sem.courses.map Course.code).Nodup ∧ ∀ c ∈ sem.courses, CourseUnique c

/-- No two entries of the schedule mapping share a semester identifier, and
every stored semester satisfies the inner uniqueness conditions. -/
def StateUnique (s : ScheduleState) : Prop :=
  (s.schedule.map Prod.fst).Nodup ∧ ∀ p ∈ s.schedule, SemesterUnique p.2

/-- A command whose carried payload respects the uniqueness conditions:
an ADD_SEMESTER's semester and an ADD_COURSE's course are installed
verbatim, so they must themselves be duplicate-free. -/
def CommandWf : Command → Prop
  | .addSemester sem => SemesterUnique sem
  | .addCourse _ course => CourseUnique course
  | _ => True

instance (c : Course) : Decidable (CourseUnique c) := by
  unfold CourseUnique; infer_instance

instance (sem : Semester) : Decidable (SemesterUnique sem) := by
  unfold SemesterUnique; infer_instance

instance (s : ScheduleState) : Decidable (StateUnique s) := by
  unfold StateUnique; infer_instance

instance (cmd : Command) : Decidable (CommandWf cmd) :=
  match cmd with
  | .addSemester sem => inferInstanceAs (Decidable (SemesterUnique sem))
  | .addCourse _ course => inferInstanceAs (Decidable (CourseUnique course))
  | .removeCourse _ _ => inferInstanceAs (Decidable True)
  | .addLecture _ _ _ => inferInstanceAs (Decidable True)
  | .removeLecture _ _ _ _ => inferInstanceAs (Decidable True)
  | .other => inferInstanceAs (Decidable True)

/-! ### Preservation of uniqueness by each course/lecture rebuild -/

theorem courseUnique_filter (c : Course) (p : Lecture → Bool)
    (h : CourseUnique c) : CourseUnique { c with lectures := c.lectures.filter p } :=
  ((List.filter_sublist c.lectures).map _).nodup h

theorem courseUnique_addLectureToCourse (c : Course) (lec : Lecture)
    (h : CourseUnique c) : CourseUnique (addLectureToCourse lec c) := by
  unfold CourseUnique addLectureToCourse at *
  simp only [List.map_cons, List.nodup_cons]
  constructor
  · intro hmem
    obtain ⟨l, hl, hkey⟩ := List.mem_map.mp hmem
    have h2 := (List.mem_filter.mp hl).2
    simp only [Prod.mk.injEq] at hkey
    simp [lectureKeyMatches, hkey.1, hkey.2] at h2
  · exact ((List.filter_sublist c.lectures).map _).nodup h

theorem semesterUnique_addCourse (sem : Semester) (course : Course)
    (hs : SemesterUnique sem) (hc : CourseUnique course) :
    SemesterUnique
      { sem with courses :=
          course :: sem.courses.filter (fun c => !(c.code == course.code)) } := by
  obtain ⟨hnodup, hall⟩ := hs
  constructor
  · simp only [List.map_cons, List.nodup_cons]
    constructor
    · intro hmem
      obtain ⟨c, hcmem, hcode⟩ := List.mem_map.mp hmem
      have h2 := (List.mem_filter.mp hcmem).2
      simp [hcode] at h2
    · exact ((List.filter_sublist sem.courses).map Course.code).nodup hnodup
  · intro c hc'
    rcases List.mem_cons.mp hc' with h | h
    · exact h ▸ hc
    · exact hall c (List.mem_filter.mp h).1

theorem semesterUnique_removeCourse (sem : Semester) (code : String)
    (hs : SemesterUnique sem) :
    SemesterUnique
      { sem with courses := sem.courses.filter (fun c => !(c.code == code)) } := by
  obtain ⟨hnodup, hall⟩ := hs
  constructor
  · exact ((List.filter_sublist sem.courses).map Course.code).nodup hnodup
  · intro c hc'
    exact hall c (List.mem_filter.mp hc').1

theorem map_code_of_code_preserving (courses : List Course) (f : Course → Course)
    (hf : ∀ c, (f c).code = c.code) :
    (courses.map f).map Course.code = courses.map Course.code := by
  rw [List.map_map]
  exact List.map_congr_left fun c _ => hf c

theorem semesterUnique_mapCourses (sem : Semester) (f : Course → Course)
    (hf : ∀ c, (f c).code = c.code)
    (hu : ∀ c, CourseUnique c → CourseUnique (f c))
    (hs : SemesterUnique sem) :
    SemesterUnique { sem with courses := sem.courses.map f } := by
  obtain ⟨hnodup, hall⟩ := hs
  constructor
  · rw [map_code_of_code_preserving sem.courses f hf]
    exact hnodup
  · intro c hc'
    obtain ⟨c₀, hc₀, hfc⟩ := List.mem_map.mp hc'
    exact hfc ▸ hu c₀ (hall c₀ hc₀)

/-! ### Step equations of the reducer -/

theorem reducer_addSemester_eq (s : ScheduleState) (sem : Semester) :
    reducer (some s) (Command.addSemester sem) = ⟨objInsert s.schedule sem.id sem⟩ :=
  rfl

theorem reducer_other_eq (s : ScheduleState) :
    reducer (some s) Command.other = s := rfl

theorem reducer_addCourse_none (s : ScheduleState) (semId : String)
    (course : Course) (h : objLookup s.schedule semId = none) :
    reducer (some s) (Command.addCourse semId course) = s := by
  simp [reducer, h]

theorem reducer_addCourse_some (s : ScheduleState) (semId : String)
    (course : Course) (sem : Semester)
    (h : objLookup s.schedule semId = some sem) :
    reducer (some s) (Command.addCourse semId course) =
      ⟨objInsert s.schedule semId
        { sem with courses :=
            course :: sem.courses.filter (fun c => !(c.code == course.code)) }⟩ := by
  simp [reducer, h]

theorem reducer_removeCourse_none (s : ScheduleState) (semId code : String)
    (h : objLookup s.schedule semId = none) :
    reducer (some s) (Command.removeCourse semId code) = s := by
  simp [reducer, h]

theorem reducer_removeCourse_some (s : ScheduleState) (semId code : String)
    (sem : Semester) (h : objLookup s.schedule semId = some sem) :
    reducer (some s) (Command.removeCourse semId code) =
      ⟨objInsert s.schedule semId
        { sem with courses := sem.courses.filter (fun c => !(c.code == code)) }⟩ := by
  simp [reducer, h]

theorem reducer_addLecture_none (s : ScheduleState) (semId code : String)
    (lec : Lecture) (h : objLookup s.schedule semId = none) :
    reducer (some s) (Command.addLecture semId code lec) = s := by
  simp [reducer, h]

theorem reducer_addLecture_noCourse (s : ScheduleState) (semId code : String)
    (lec : Lecture) (sem : Semester)
    (h : objLookup s.schedule semId = some sem)
    (hc : sem.courses.any (fun c => c.code == code) = false) :
    reducer (some s) (Command.addLecture semId code lec) = s := by
  simp [reducer, h, hc]

theorem reducer_addLecture_some (s : ScheduleState) (semId code : String)
    (lec : Lecture) (sem : Semester)
    (h : objLookup s.schedule semId = some sem)
    (hc : sem.courses.any (fun c => c.code == code) = true) :
    reducer (some s) (Command.addLecture semId code lec) =
      ⟨objInsert s.schedule semId
        { sem with courses := sem.courses.map (fun c =>
            if c.code == code then addLectureToCourse lec c else c) }⟩ := by
  simp [reducer, h, hc]

theorem reducer_removeLecture_none (s : ScheduleState) (semId code : String)
    (d t : Int) (h : objLookup s.schedule semId = none) :
    reducer (some s) (Command.removeLecture semId code d t) = s := by
  simp [reducer, h]

theorem reducer_removeLecture_noCourse (s : ScheduleState) (semId code : String)
    (d t : Int) (sem : Semester)
    (h : objLookup s.schedule semId = some sem)
    (hc : sem.courses.any (fun c => c.code == code) = false) :
    reducer (some s) (Command.removeLecture semId code d t) = s := by
  simp [reducer, h, hc]

theorem reducer_removeLecture_some (s : ScheduleState) (semId code : String)
    (d t : Int) (sem : Semester)
    (h : objLookup s.schedule semId = some sem)
    (hc : sem.courses.any (fun c => c.code == code) = true) :
    reducer (some s) (Command.removeLecture semId code d t) =
      ⟨objInsert s.schedule semId
        { sem with courses := sem.courses.map (fun c =>
            if c.code == code then removeLectureFromCourse d t c else c) }⟩ := by
  simp [reducer, h, hc]

/-- The semester stored under a key of a uniqueness-respecting state is
itself uniqueness-respecting. -/
theorem semesterUnique_of_lookup (s : ScheduleState) (semId : String)
    (sem : Semester) (hs : StateUnique s)
    (h : objLookup s.schedule semId = some sem) : SemesterUnique sem :=
  hs.2 (semId, sem) (objLookup_mem s.schedule semId sem h)

/-- Replacing or inserting one uniqueness-respecting semester keeps the
whole state uniqueness-respecting. -/
theorem stateUnique_objInsert (s : ScheduleState) (k : String) (sem : Semester)
    (hs : StateUnique s) (hsem : SemesterUnique sem) :
    StateUnique ⟨objInsert s.schedule k sem⟩ := by
  refine ⟨nodup_keys_objInsert s.schedule k sem hs.1, ?_⟩
  intro p hp
  rcases mem_objInsert s.schedule k sem p hp with h | h
  · exact hs.2 p h
  · rw [h]
    exact hsem

/-- One reducer step preserves the uniqueness invariants, provided the
command's own payload is duplicate-free. -/
theorem stateUnique_reducer_step (s : ScheduleState) (cmd : Command)
    (hs : StateUnique s) (hc : CommandWf cmd) :
    StateUnique (reducer (some s) cmd) := by
  cases cmd with
  | addSemester sem =>
      rw [reducer_addSemester_eq]
      exact stateUnique_objInsert s sem.id sem hs hc
  | addCourse semId course =>
      cases hlook : objLookup s.schedule semId with
      | none =>
          rw [reducer_addCourse_none s semId course hlook]
          exact hs
      | some sem =>
          rw [reducer_addCourse_some s semId course sem hlook]
          exact stateUnique_objInsert s semId _ hs
            (semesterUnique_addCourse sem course
              (semesterUnique_of_lookup s semId sem hs hlook) hc)
  | removeCourse semId code =>
      cases hlook : objLookup s.schedule semId with
      | none =>
          rw [reducer_removeCourse_none s semId code hlook]
          exact hs
      | some sem =>
          rw [reducer_removeCourse_some s semId code sem hlook]
          exact stateUnique_objInsert s semId _ hs
            (semesterUnique_removeCourse sem code
              (semesterUnique_of_lookup s semId sem hs hlook))
  | addLecture semId code lec =>
      cases hlook : objLookup s.schedule semId with
      | none =>
          rw [reducer_addLecture_none s semId code lec hlook]
          exact hs
      | some sem =>
          cases hany : sem.courses.any (fun c => c.code == code) with
          | false =>
              rw [reducer_addLecture_noCourse s semId code lec sem hlook hany]
              exact hs
          | true =>
              rw [reducer_addLecture_some s semId code lec sem hlook hany]
              refine stateUnique_objInsert s semId _ hs
                (semesterUnique_mapCourses sem _ ?_ ?_
                  (semesterUnique_of_lookup s semId sem hs hlook))
              · intro c
                by_cases h : c.code == code
                · simp [h, addLectureToCourse]
                · simp [h]
              · intro c hcu
                by_cases h : c.code == code
                · simpa [h] using courseUnique_addLectureToCourse c lec hcu
                · simpa [h] using hcu
  | removeLecture semId code d t =>
      cases hlook : objLookup s.schedule semId with
      | none =>
          rw [reducer_removeLecture_none s semId code d t hlook]
          exact hs
      | some sem =>
          cases hany : sem.courses.any (fun c => c.code == code) with
          | false =>
              rw [reducer_removeLecture_noCourse s semId code d t sem hlook hany]
              exact hs
          | true =>
              rw [reducer_removeLecture_some s semId code d t sem hlook hany]
              refine stateUnique_objInsert s semId _ hs
                (semesterUnique_mapCourses sem _ ?_ ?_
                  (semesterUnique_of_lookup s semId sem hs hlook))
              · intro c
                by_cases h : c.code == code
                · simp [h, removeLectureFromCourse]
                · simp [h]
              · intro c hcu
                by_cases h : c.code == code
                · simpa [h] using courseUnique_filter c _ hcu
                · simpa [h] using hcu
  | other =>
      rw [reducer_other_eq]
      exact hs

theorem stateUnique_applyCommands (cmds : List Command) (s : ScheduleState)
    (hs : StateUnique s) (hall : ∀ c ∈ cmds, CommandWf c) :
    StateUnique (applyCommands s cmds) := by
  induction cmds generalizing s with
  | nil => exact hs
  | cons c rest ih =>
      exact ih (reducer (some s) c)
        (stateUnique_reducer_step s c hs (hall c (List.mem_cons_self c rest)))
        (fun c' hc' => hall c' (List.mem_cons_of_mem c hc'))

theorem stateUnique_initialState : StateUnique initialState := by
  constructor <;> simp [initialState]

theorem applyCommands_nil (s : ScheduleState) : applyCommands s [] = s := rfl

theorem applyCommands_cons (s : ScheduleState) (c : Command)
    (cmds : List Command) :
    applyCommands s (c :: cmds) = applyCommands (reducer (some s) c) cmds := rfl

theorem applyCommands_singleton (s : ScheduleState) (c : Command) :
    applyCommands s [c] = reducer (some s) c := rfl

theorem applyCommands_append (s : ScheduleState) (l₁ l₂ : List Command) :
    applyCommands s (l₁ ++ l₂) = applyCommands (applyCommands s l₁) l₂ := by
  simp [applyCommands, List.foldl_append]

/-- A semester identifier that resolves keeps resolving through any run of
ADD_COURSE commands aimed at it. -/
theorem addCourse_preserves_presence (cs : List Course) (semId : String)
    (s : ScheduleState) (sem : Semester)
    (h : objLookup s.schedule semId = some sem) :
    ∃ sem₂, objLookup
      (applyCommands s (cs.map (Command.addCourse semId))).schedule semId =
        some sem₂ := by
  induction cs generalizing s sem with
  | nil => exact ⟨sem, h⟩
  | cons c rest ih =>
      rw [List.map_cons, applyCommands_cons,
        reducer_addCourse_some s semId c sem h]
      exact ih _ _ (objLookup_objInsert_self s.schedule semId _)

/-- Helper: mapping a function that fixes every element of a list is the
identity on that list. -/
theorem map_id_of_mem_eq {α : Type} (l : List α) (f : α → α)
    (h : ∀ a ∈ l, f a = a) : l.map f = l := by
  induction l with
  | nil => rfl
  | cons a rest ih =>
      rw [List.map_cons, h a (List.mem_cons_self a rest),
        ih (fun a' ha' => h a' (List.mem_cons_of_mem a ha'))]

/-! ### Sample data, mirroring the fixtures of `schedule-test.js` -/

def lecture1 : Lecture := ⟨1, 0, "endTime 90 format 0"⟩

def lecture2 : Lecture := ⟨2, 270, "endTime 180 format 3"⟩

def lecture3 : Lecture := ⟨1, 90, "endTime 180 format 1"⟩

def course1 : Course := ⟨"code1", [], ""⟩

def course2 : Course := ⟨"code2", [], ""⟩

def course3 : Course := ⟨"code1", [], "updated payload"⟩

def sampleSemester : Semester := ⟨"semester1", [course1, course2], "Semester 1"⟩

def sampleState : ScheduleState := ⟨[("semester1", sampleSemester)]⟩

def semester2 : Semester := ⟨"semester2", [], "Semester 2"⟩

def courseL : Course := ⟨"code1", [lecture1, lecture2], ""⟩

def semesterL : Semester := ⟨"semester1", [courseL, course2], "Semester 1"⟩

def stateL : ScheduleState := ⟨[("semester1", semesterL)]⟩

/-! ### The claims -/

/-- C10: an absent/uninitialized state is normalized to the empty
ScheduleState before processing, so any command applied to the absent state
equals the same command applied to the empty state; a command whose tag is
none of the five schedule tags returns the state unchanged; in particular
the empty command on the absent state returns the empty state. -/
theorem absent_state_normalized (cmd : Command) (s : ScheduleState) :
    reducer none cmd = reducer (some initialState) cmd ∧
    reducer (some s) Command.other = s ∧
    reducer none Command.other = initialState := by
  refine ⟨?_, rfl, rfl⟩
  cases cmd <;> rfl

/-- C9: applying ADD_SEMESTER twice with the same semester value yields the
same state as applying it once. -/
theorem addSemester_idempotent (s : ScheduleState) (sem : Semester) :
    reducer (some (reducer (some s) (Command.addSemester sem)))
        (Command.addSemester sem) =
      reducer (some s) (Command.addSemester sem) := by
  simp only [reducer_addSemester_eq]
  exact congrArg ScheduleState.mk
    (objInsert_lookup_self _ _ _ (objLookup_objInsert_self s.schedule sem.id sem))

/-- C6: ADD_SEMESTER sets the schedule entry at the semester's own
identifier to the supplied semester verbatim (course sequence taken as-is),
whether or not an entry with that identifier already existed, leaves every
other identifier's entry unchanged, and never fails. -/
theorem addSemester_installs_verbatim (s : ScheduleState) (sem : Semester) :
    objLookup (reducer (some s) (Command.addSemester sem)).schedule sem.id =
      some sem ∧
    ∀ k, k ≠ sem.id →
      objLookup (reducer (some s) (Command.addSemester sem)).schedule k =
        objLookup s.schedule k := by
  rw [reducer_addSemester_eq]
  exact ⟨objLookup_objInsert_self _ _ _,
    fun k hk => objLookup_objInsert_ne _ _ _ _ hk⟩

theorem addSemester_installs_verbatim_witness :
    objLookup (reducer (some sampleState)
        (Command.addSemester semester2)).schedule "semester2" = some semester2 ∧
    objLookup (reducer (some sampleState)
        (Command.addSemester semester2)).schedule "semester1" =
      objLookup sampleState.schedule "semester1" :=
  ⟨(addSemester_installs_verbatim sampleState semester2).1,
   (addSemester_installs_verbatim sampleState semester2).2 "semester1" (by decide)⟩

/-- C3: the four targeted commands aimed at a semester identifier that is
not a key of the schedule mapping return a state equal in value to the
input, and the two lecture commands aimed at a course code absent from the
resolved semester do likewise; none of them fails. -/
theorem missing_target_noop (s : ScheduleState) (semId code : String)
    (course : Course) (lec : Lecture) (d t : Int) :
    (objLookup s.schedule semId = none →
      reducer (some s) (Command.addCourse semId course) = s ∧
      reducer (some s) (Command.removeCourse semId code) = s ∧
      reducer (some s) (Command.addLecture semId code lec) = s ∧
      reducer (some s) (Command.removeLecture semId code d t) = s) ∧
    (∀ sem, objLookup s.schedule semId = some sem →
      sem.courses.any (fun c => c.code == code) = false →
      reducer (some s) (Command.addLecture semId code lec) = s ∧
      reducer (some s) (Command.removeLecture semId code d t) = s) := by
  constructor
  · intro h
    exact ⟨reducer_addCourse_none s semId course h,
      reducer_removeCourse_none s semId code h,
      reducer_addLecture_none s semId code lec h,
      reducer_removeLecture_none s semId code d t h⟩
  · intro sem h hc
    exact ⟨reducer_addLecture_noCourse s semId code lec sem h hc,
      reducer_removeLecture_noCourse s semId code d t sem h hc⟩

theorem missing_target_noop_witness :
    reducer (some sampleState) (Command.addCourse "semester2" course1) =
      sampleState ∧
    reducer (some sampleState)
        (Command.addLecture "semester1" "code9" lecture1) = sampleState :=
  ⟨((missing_target_noop sampleState "semester2" "code9" course1 lecture1
      1 0).1 rfl).1,
   ((missing_target_noop sampleState "semester1" "code9" course1 lecture1
      1 0).2 sampleSemester rfl rfl).1⟩

/-- C1: when the target semester resolves, ADD_COURSE replaces its course
sequence by the new course at index 0 followed by the previously existing
courses minus any with the same code, in their previous relative order; and
after any sequence of ADD_COURSE commands into one semester the most
recently added course is at index 0. -/
theorem addCourse_upsert_promotion (s : ScheduleState) (semId : String)
    (course : Course) (sem : Semester)
    (h : objLookup s.schedule semId = some sem) :
    (∃ sem', objLookup
        (reducer (some s) (Command.addCourse semId course)).schedule semId =
          some sem' ∧
      sem'.courses =
        course :: sem.courses.filter (fun c => !(c.code == course.code)) ∧
      sem'.courses.head? = some course) ∧
    ∀ (cs : List Course) (last : Course),
      ∃ sem₂, objLookup
        (applyCommands s
          (cs.map (Command.addCourse semId) ++
            [Command.addCourse semId last])).schedule semId = some sem₂ ∧
        sem₂.courses.head? = some last := by
  constructor
  · rw [reducer_addCourse_some s semId course sem h]
    exact ⟨_, objLookup_objInsert_self _ _ _, rfl, rfl⟩
  · intro cs last
    rw [applyCommands_append]
    obtain ⟨sem₁, h₁⟩ := addCourse_preserves_presence cs semId s sem h
    rw [applyCommands_singleton, reducer_addCourse_some _ semId last sem₁ h₁]
    exact ⟨_, objLookup_objInsert_self _ _ _, rfl⟩

theorem addCourse_upsert_promotion_witness :
    objLookup sampleState.schedule "semester1" = some sampleSemester ∧
    ∃ sem', objLookup (reducer (some sampleState)
        (Command.addCourse "semester1" course3)).schedule "semester1" =
          some sem' ∧
      sem'.courses = course3 ::
        sampleSemester.courses.filter (fun c => !(c.code == course3.code)) ∧
      sem'.courses.head? = some course3 :=
  ⟨rfl, (addCourse_upsert_promotion sampleState "semester1" course3
    sampleSemester rfl).1⟩

/-- C4: when the target semester resolves, REMOVE_COURSE replaces its course
sequence by the existing courses minus the one with the given code, keeping
the relative order of the remainder (the result is a sublist); if no course
carries that code the state is unchanged by value. -/
theorem removeCourse_filters (s : ScheduleState) (semId code : String)
    (sem : Semester) (h : objLookup s.schedule semId = some sem) :
    ∃ sem', objLookup
        (reducer (some s) (Command.removeCourse semId code)).schedule semId =
          some sem' ∧
      sem'.courses = sem.courses.filter (fun c => !(c.code == code)) ∧
      sem'.courses.Sublist sem.courses ∧
      ((∀ c ∈ sem.courses, (c.code == code) = false) →
        reducer (some s) (Command.removeCourse semId code) = s) := by
  rw [reducer_removeCourse_some s semId code sem h]
  refine ⟨_, objLookup_objInsert_self _ _ _, rfl, List.filter_sublist _, ?_⟩
  intro hnone
  have hfilter : sem.courses.filter (fun c => !(c.code == code)) = sem.courses := by
    apply List.filter_eq_self.mpr
    intro c hc
    simp [hnone c hc]
  have hsem : ({ sem with courses :=
                   sem.courses.filter (fun c => !(c.code == code)) } : Semester) = sem := by
    rw [hfilter]
  rw [hsem, objInsert_lookup_self s.schedule semId sem h]

theorem removeCourse_filters_witness :
    ∃ sem', objLookup (reducer (some sampleState)
        (Command.removeCourse "semester1" "code2")).schedule "semester1" =
          some sem' ∧
      sem'.courses = sampleSemester.courses.filter (fun c => !(c.code == "code2")) ∧
      sem'.courses.Sublist sampleSemester.courses ∧
      ((∀ c ∈ sampleSemester.courses, (c.code == "code2") = false) →
        reducer (some sampleState) (Command.removeCourse "semester1" "code2") =
          sampleState) :=
  removeCourse_filters sampleState "semester1" "code2" sampleSemester rfl

/-- C2: when the target semester and a course with the target code resolve,
ADD_LECTURE rebuilds exactly the matching course's lecture sequence as the
new lecture at index 0 followed by the previously existing lectures minus
any with the same `(day, startTime)` key; every non-matching course is
untouched, the list of course codes at each index is unchanged (so the
course keeps its position in the semester's course sequence), and the
matching course keeps its code and opaque payload. -/
theorem addLecture_upsert_promotion (s : ScheduleState) (semId code : String)
    (lec : Lecture) (sem : Semester)
    (h : objLookup s.schedule semId = some sem)
    (hc : sem.courses.any (fun c => c.code == code) = true) :
    ∃ sem', objLookup
        (reducer (some s) (Command.addLecture semId code lec)).schedule semId =
          some sem' ∧
      sem'.courses.length = sem.courses.length ∧
      (∀ i : Nat,
        (sem'.courses[i]?).map Course.code = (sem.courses[i]?).map Course.code) ∧
      (∀ i : Nat, ∀ c c', sem.courses[i]? = some c → sem'.courses[i]? = some c' →
        ((c.code == code) = false → c' = c) ∧
        ((c.code == code) = true →
          c'.lectures = lec :: c.lectures.filter
            (fun l => !(lectureKeyMatches lec.day lec.startTime l)) ∧
          c'.code = c.code ∧ c'.payload = c.payload ∧
          c'.lectures.head? = some lec)) := by
  rw [reducer_addLecture_some s semId code lec sem h hc]
  refine ⟨_, objLookup_objInsert_self _ _ _, by simp, ?_, ?_⟩
  · intro i
    show ((sem.courses.map _)[i]?).map Course.code = _
    rw [List.getElem?_map]
    cases hci : sem.courses[i]? with
    | none => rfl
    | some c =>
        simp only [Option.map_some', Option.some.injEq, addLectureToCourse]
        split <;> rfl
  · intro i c c' hci hci'
    have hmap : (sem.courses.map (fun c =>
        if c.code == code then addLectureToCourse lec c else c))[i]? =
          (sem.courses[i]?).map (fun c =>
            if c.code == code then addLectureToCourse lec c else c) :=
      List.getElem?_map _ _ _
    rw [hmap, hci] at hci'
    simp only [Option.map_some', Option.some.injEq] at hci'
    constructor
    · intro hcc
      rw [← hci']
      simp [hcc]
    · intro hcc
      rw [← hci']
      simp [hcc, addLectureToCourse]

theorem addLecture_upsert_promotion_witness :
    objLookup stateL.schedule "semester1" = some semesterL ∧
    ∃ sem', objLookup (reducer (some stateL)
        (Command.addLecture "semester1" "code1" lecture3)).schedule "semester1" =
          some sem' ∧
      sem'.courses.length = semesterL.courses.length ∧
      (sem'.courses[0]?).map Course.code = some "code1" := by
  obtain ⟨sem', h1, h2, h3, h4⟩ :=
    addLecture_upsert_promotion stateL "semester1" "code1" lecture3 semesterL
      rfl rfl
  refine ⟨rfl, sem', h1, h2, ?_⟩
  rw [h3 0]
  rfl

/-- C5: when the target semester and a course with the target code resolve,
REMOVE_LECTURE rebuilds exactly the matching course's lecture sequence by
filtering out the lecture whose `(day, startTime)` equals the command's,
keeping the order of the remainder (a sublist); non-matching courses and
the course's position, code and payload are untouched; and if no lecture of
the matching courses carries that key the state is unchanged by value. -/
theorem removeLecture_filters (s : ScheduleState) (semId code : String)
    (d t : Int) (sem : Semester)
    (h : objLookup s.schedule semId = some sem)
    (hc : sem.courses.any (fun c => c.code == code) = true) :
    ∃ sem', objLookup
        (reducer (some s) (Command.removeLecture semId code d t)).schedule semId =
          some sem' ∧
      sem'.courses.length = sem.courses.length ∧
      (∀ i : Nat,
        (sem'.courses[i]?).map Course.code = (sem.courses[i]?).map Course.code) ∧
      (∀ i : Nat, ∀ c c', sem.courses[i]? = some c → sem'.courses[i]? = some c' →
        ((c.code == code) = false → c' = c) ∧
        ((c.code == code) = true →
          c'.lectures = c.lectures.filter (fun l => !(lectureKeyMatches d t l)) ∧
          c'.lectures.Sublist c.lectures ∧
          c'.code = c.code ∧ c'.payload = c.payload)) ∧
      ((∀ c ∈ sem.courses, (c.code == code) = true →
          ∀ l ∈ c.lectures, lectureKeyMatches d t l = false) →
        reducer (some s) (Command.removeLecture semId code d t) = s) := by
  rw [reducer_removeLecture_some s semId code d t sem h hc]
  refine ⟨_, objLookup_objInsert_self _ _ _, by simp, ?_, ?_, ?_⟩
  · intro i
    show ((sem.courses.map _)[i]?).map Course.code = _
    rw [List.getElem?_map]
    cases hci : sem.courses[i]? with
    | none => rfl
    | some c =>
        simp only [Option.map_some', Option.some.injEq, removeLectureFromCourse]
        split <;> rfl
  · intro i c c' hci hci'
    have hmap : (sem.courses.map (fun c =>
        if c.code == code then removeLectureFromCourse d t c else c))[i]? =
          (sem.courses[i]?).map (fun c =>
            if c.code == code then removeLectureFromCourse d t c else c) :=
      List.getElem?_map _ _ _
    rw [hmap, hci] at hci'
    simp only [Option.map_some', Option.some.injEq] at hci'
    constructor
    · intro hcc
      rw [← hci']
      simp [hcc]
    · intro hcc
      rw [← hci']
      refine ⟨by simp [hcc, removeLectureFromCourse], ?_,
        by simp [hcc, removeLectureFromCourse], by simp [hcc, removeLectureFromCourse]⟩
      simp only [hcc, if_true, removeLectureFromCourse]
      exact List.filter_sublist _
  · intro hnone
    have hmapid : sem.courses.map (fun c =>
        if c.code == code then removeLectureFromCourse d t c else c) =
          sem.courses := by
      apply map_id_of_mem_eq
      intro c hcmem
      by_cases hcc : c.code == code
      · have hfilter : c.lectures.filter (fun l => !(lectureKeyMatches d t l)) =
            c.lectures := by
          apply List.filter_eq_self.mpr
          intro l hl
          simp [hnone c hcmem hcc l hl]
        simp only [hcc, if_true, removeLectureFromCourse, hfilter]
      · simp [hcc]
    rw [hmapid]
    have hsem : ({ sem with courses := sem.courses } : Semester) = sem := rfl
    rw [hsem, objInsert_lookup_self s.schedule semId sem h]

theorem removeLecture_filters_witness :
    objLookup stateL.schedule "semester1" = some semesterL ∧
    ∃ sem', objLookup (reducer (some stateL)
        (Command.removeLecture "semester1" "code1" 2 270)).schedule "semester1" =
          some sem' ∧
      sem'.courses.length = semesterL.courses.length ∧
      (sem'.courses[0]?).map Course.code = some "code1" := by
  obtain ⟨sem', h1, h2, h3, h4, h5⟩ :=
    removeLecture_filters stateL "semester1" "code1" 2 270 semesterL rfl rfl
  refine ⟨rfl, sem', h1, h2, ?_⟩
  rw [h3 0]
  rfl

/-- C8: every command rebuilds only the path to the touched branch.
ADD_COURSE, REMOVE_COURSE, ADD_LECTURE and REMOVE_LECTURE leave every other
semester's entry untouched and preserve the target semester's identifier
and opaque payload; ADD_LECTURE and REMOVE_LECTURE additionally preserve,
at every index of the target semester's course sequence, the course's code
and opaque payload, and leave every non-matching course entirely
unchanged. -/
theorem frame_effects (s : ScheduleState) (semId code : String)
    (course : Course) (lec : Lecture) (d t : Int) :
    (∀ cmd, (cmd = Command.addCourse semId course ∨
        cmd = Command.removeCourse semId code ∨
        cmd = Command.addLecture semId code lec ∨
        cmd = Command.removeLecture semId code d t) →
      (∀ k, k ≠ semId →
        objLookup (reducer (some s) cmd).schedule k = objLookup s.schedule k) ∧
      (∀ sem sem', objLookup s.schedule semId = some sem →
        objLookup (reducer (some s) cmd).schedule semId = some sem' →
        sem'.id = sem.id ∧ sem'.payload = sem.payload)) ∧
    (∀ cmd, (cmd = Command.addLecture semId code lec ∨
        cmd = Command.removeLecture semId code d t) →
      ∀ sem sem', objLookup s.schedule semId = some sem →
        objLookup (reducer (some s) cmd).schedule semId = some sem' →
        ∀ i : Nat, ∀ c c', sem.courses[i]? = some c → sem'.courses[i]? = some c' →
          c'.code = c.code ∧ c'.payload = c.payload ∧
          ((c.code == code) = false → c' = c)) := by
  constructor
  · intro cmd hcmd
    rcases hcmd with rfl | rfl | rfl | rfl
    · cases hlook : objLookup s.schedule semId with
      | none =>
          rw [reducer_addCourse_none s semId course hlook]
          exact ⟨fun k _ => rfl, fun sem sem' hsem hres => Option.noConfusion hsem⟩
      | some sem =>
          rw [reducer_addCourse_some s semId course sem hlook]
          refine ⟨fun k hk => objLookup_objInsert_ne _ _ _ _ hk, ?_⟩
          intro sem₀ sem' hsem hres
          injection hsem with hsem
          rw [objLookup_objInsert_self, Option.some.injEq] at hres
          rw [← hres, ← hsem]
          exact ⟨rfl, rfl⟩
    · cases hlook : objLookup s.schedule semId with
      | none =>
          rw [reducer_removeCourse_none s semId code hlook]
          exact ⟨fun k _ => rfl, fun sem sem' hsem hres => Option.noConfusion hsem⟩
      | some sem =>
          rw [reducer_removeCourse_some s semId code sem hlook]
          refine ⟨fun k hk => objLookup_objInsert_ne _ _ _ _ hk, ?_⟩
          intro sem₀ sem' hsem hres
          injection hsem with hsem
          rw [objLookup_objInsert_self, Option.some.injEq] at hres
          rw [← hres, ← hsem]
          exact ⟨rfl, rfl⟩
    · cases hlook : objLookup s.schedule semId with
      | none =>
          rw [reducer_addLecture_none s semId code lec hlook]
          exact ⟨fun k _ => rfl, fun sem sem' hsem hres => Option.noConfusion hsem⟩
      | some sem =>
          cases hany : sem.courses.any (fun c => c.code == code) with
          | false =>
              rw [reducer_addLecture_noCourse s semId code lec sem hlook hany]
              refine ⟨fun k _ => rfl, ?_⟩
              intro sem₀ sem' hsem hres
              injection hsem with hsem
              rw [hlook, Option.some.injEq] at hres
              rw [← hres, ← hsem]
              exact ⟨rfl, rfl⟩
          | true =>
              rw [reducer_addLecture_some s semId code lec sem hlook hany]
              refine ⟨fun k hk => objLookup_objInsert_ne _ _ _ _ hk, ?_⟩
              intro sem₀ sem' hsem hres
              injection hsem with hsem
              rw [objLookup_objInsert_self, Option.some.injEq] at hres
              rw [← hres, ← hsem]
              exact ⟨rfl, rfl⟩
    · cases hlook : objLookup s.schedule semId with
      | none =>
          rw [reducer_removeLecture_none s semId code d t hlook]
          exact ⟨fun k _ => rfl, fun sem sem' hsem hres => Option.noConfusion hsem⟩
      | some sem =>
          cases hany : sem.courses.any (fun c => c.code == code) with
          | false =>
              rw [reducer_removeLecture_noCourse s semId code d t sem hlook hany]
              refine ⟨fun k _ => rfl, ?_⟩
              intro sem₀ sem' hsem hres
              injection hsem with hsem
              rw [hlook, Option.some.injEq] at hres
              rw [← hres, ← hsem]
              exact ⟨rfl, rfl⟩
          | true =>
              rw [reducer_removeLecture_some s semId code d t sem hlook hany]
              refine ⟨fun k hk => objLookup_objInsert_ne _ _ _ _ hk, ?_⟩
              intro sem₀ sem' hsem hres
              injection hsem with hsem
              rw [objLookup_objInsert_self, Option.some.injEq] at hres
              rw [← hres, ← hsem]
              exact ⟨rfl, rfl⟩
  · intro cmd hcmd
    rcases hcmd with rfl | rfl
    · intro sem₀ sem' hsem hres i c c' hci hci'
      cases hany : sem₀.courses.any (fun c => c.code == code) with
      | false =>
          rw [reducer_addLecture_noCourse s semId code lec sem₀ hsem hany]
            at hres
          rw [hsem, Option.some.injEq] at hres
          rw [← hres] at hci'
          rw [hci, Option.some.injEq] at hci'
          rw [← hci']
          exact ⟨rfl, rfl, fun _ => rfl⟩
      | true =>
          rw [reducer_addLecture_some s semId code lec sem₀ hsem hany] at hres
          rw [objLookup_objInsert_self, Option.some.injEq] at hres
          rw [← hres] at hci'
          have hmap : (sem₀.courses.map (fun c =>
              if c.code == code then addLectureToCourse lec c else c))[i]? =
                (sem₀.courses[i]?).map (fun c =>
                  if c.code == code then addLectureToCourse lec c else c) :=
            List.getElem?_map _ _ _
          rw [hmap, hci] at hci'
          simp only [Option.map_some', Option.some.injEq] at hci'
          rw [← hci']
          refine ⟨?_, ?_, ?_⟩
          · split <;> rfl
          · split <;> rfl
          · intro hcc
            simp [hcc]
    · intro sem₀ sem' hsem hres i c c' hci hci'
      cases hany : sem₀.courses.any (fun c => c.code == code) with
      | false =>
          rw [reducer_removeLecture_noCourse s semId code d t sem₀ hsem hany]
            at hres
          rw [hsem, Option.some.injEq] at hres
          rw [← hres] at hci'
          rw [hci, Option.some.injEq] at hci'
          rw [← hci']
          exact ⟨rfl, rfl, fun _ => rfl⟩
      | true =>
          rw [reducer_removeLecture_some s semId code d t sem₀ hsem hany]
            at hres
          rw [objLookup_objInsert_self, Option.some.injEq] at hres
          rw [← hres] at hci'
          have hmap : (sem₀.courses.map (fun c =>
              if c.code == code then removeLectureFromCourse d t c else c))[i]? =
                (sem₀.courses[i]?).map (fun c =>
                  if c.code == code then removeLectureFromCourse d t c else c) :=
            List.getElem?_map _ _ _
          rw [hmap, hci] at hci'
          simp only [Option.map_some', Option.some.injEq] at hci'
          rw [← hci']
          refine ⟨?_, ?_, ?_⟩
          · split <;> rfl
          · split <;> rfl
          · intro hcc
            simp [hcc]

theorem frame_effects_witness :
    objLookup (reducer (some sampleState)
        (Command.addCourse "semester1" course3)).schedule "semester9" =
      objLookup sampleState.schedule "semester9" ∧
    (⟨"semester1", [course3, course2], "Semester 1"⟩ : Semester).id =
        sampleSemester.id ∧
      (⟨"semester1", [course3, course2], "Semester 1"⟩ : Semester).payload =
        sampleSemester.payload :=
  ⟨((frame_effects sampleState "semester1" "code2" course3 lecture1 1 0).1 _
      (Or.inl rfl)).1 "semester9" (by decide),
   ((frame_effects sampleState "semester1" "code2" course3 lecture1 1 0).1 _
      (Or.inl rfl)).2 sampleSemester
        ⟨"semester1", [course3, course2], "Semester 1"⟩ rfl rfl⟩

/-- A semester value carrying two courses with the same code, as a caller
may hand to ADD_SEMESTER. -/
def dupSemester : Semester := ⟨"s1", [⟨"c1", [], ""⟩, ⟨"c1", [], ""⟩], ""⟩

/-- C7 as stated is false: ADD_SEMESTER installs its semester value
verbatim (course sequence taken as-is), so a single command applied to the
initial state can produce a semester whose course sequence repeats a code. -/
theorem uniqueness_counterexample :
    ¬ StateUnique (applyCommands initialState
      [Command.addSemester dupSemester]) := by
  decide

/-- C7 (amended): after any sequence of commands applied from the initial
state in which each ADD_SEMESTER's semester payload and each ADD_COURSE's
course payload are themselves duplicate-free, no semester identifier
appears more than once in the schedule mapping, no course code more than
once within any one semester, and no `(day, startTime)` pair more than once
within any one course. -/
theorem uniqueness_invariant (cmds : List Command)
    (hall : ∀ c ∈ cmds, CommandWf c) :
    StateUnique (applyCommands initialState cmds) :=
  stateUnique_applyCommands cmds initialState stateUnique_initialState hall

theorem uniqueness_invariant_witness :
    StateUnique (applyCommands initialState
      [Command.addSemester sampleSemester,
       Command.addCourse "semester1" course3,
       Command.addLecture "semester1" "code1" lecture1,
       Command.removeCourse "semester1" "code2"]) :=
  uniqueness_invariant _ (by decide)

end CampusGuide
